import Mathlib

/-!
# Retry decision and request execution (`src/es/utils.go`)

A shallow embedding of `checkRetry` and `Client.MakeRequest`.

* Go pointers and interfaces that may be nil are `Option`s.
* A run-time panic is the `error` side of `Except Panic`; nothing in the
  source recovers from one, so a panic ends the program.
* The libraries the source calls (`encoding/json`, `go-retryablehttp`,
  `net/http`) are parameters of the embedded functions: a `Codec`, a
  `RetryPolicy` and a `Transport`.  The theorems hold for every choice of
  them.  Reference instances (`goJSON`, `DefaultRetryPolicy`, simulated
  transports) are used at concrete inputs only.
-/

namespace Es

/-! ## Go values -/

/-- A non-nil Go `error`; a nil error is `none : Option GoError`. -/
structure GoError where
  msg : String
deriving DecidableEq, Repr

/-- The run-time panics the embedded code can raise. -/
inductive Panic where
  /-- A single-value type assertion `x.(T)` on a value whose dynamic type is not `T`. -/
  | interfaceConversion
  /-- A field or method access through a nil pointer. -/
  | nilDereference
  /-- A panic raised inside a library call. -/
  | library
deriving DecidableEq, Repr

/-- The dynamic values an `interface{}` holds after `encoding/json` decoded
into it.  `nil` is the nil interface (JSON `null`), `float64` carries the exact
value of a JSON number, and `map none` is a nil `map[string]interface{}`. -/
inductive GoValue where
  | nil
  | bool (b : Bool)
  | float64 (x : Rat)
  | string (s : String)
  | slice (xs : List GoValue)
  | map (m : Option (List (String × GoValue)))

/-- A `map[string]interface{}`: `none` is the nil map, `some kvs` a map with the
entries `kvs` (the first entry of a key is the one the map holds). -/
abbrev GoMap := Option (List (String × GoValue))

/-- The index expression `m[k]`: the zero value (nil interface) when `m` is nil or has no
entry for `k`. -/
def GoMap.index (m : GoMap) (k : String) : GoValue :=
  match m with
  | none => GoValue.nil
  | some kvs => (kvs.lookup k).getD GoValue.nil

/-- The type assertion `v.(map[string]interface{})` in its single-value form. -/
def GoValue.assertMap : GoValue → Except Panic GoMap
  | GoValue.map m => Except.ok m
  | _ => Except.error Panic.interfaceConversion

/-- The type assertion `v.(string)` in its single-value form. -/
def GoValue.assertString : GoValue → Except Panic String
  | GoValue.string s => Except.ok s
  | _ => Except.error Panic.interfaceConversion

/-! ## HTTP and library interfaces -/

/-- The part of `context.Context` a retry policy looks at: `ctx.Err()`. -/
structure Context where
  Err : Option GoError
deriving DecidableEq, Repr

/-- The part of `http.Response` the source uses.  `Body` is what is still unread
of the body stream; reading consumes it. -/
structure HttpResponse where
  StatusCode : Int
  Body : List UInt8
deriving DecidableEq, Repr

/-- The two `encoding/json` calls of the source, with their errors dropped as the source
drops them. `Decode b` is the value of a nil `map[string]interface{}` variable after
`json.NewDecoder(b).Decode(&v)`; `Marshal m` is the bytes of `json.Marshal(m)`. -/
structure Codec where
  Decode : List UInt8 → GoMap
  Marshal : GoMap → List UInt8

/-- The signature of `retryablehttp.CheckRetry`: context, response (nil when none was
received) and transport error, to the pair (retry, error). -/
abbrev RetryPolicy := Context → Option HttpResponse → Option GoError → Bool × Option GoError

/-- What a call of `checkRetry` leaves behind: the returned pair and the state of the
response object it was given (`none` when `resp` was nil). -/
structure CheckResult where
  retry : Bool
  err : Option GoError
  resp : Option HttpResponse
deriving DecidableEq, Repr

/-! ## `checkRetry` (lines 49-71) -/

/-- The retry hook installed on the client.  `policy` stands for
`retryablehttp.DefaultRetryPolicy`. -/
def checkRetry (json : Codec) (policy : RetryPolicy) (ctx : Context)
    (resp : Option HttpResponse) (err : Option GoError) : Except Panic CheckResult :=
  match resp with
  | none => Except.ok ⟨false, none, none⟩
  | some resp =>
    if resp.StatusCode = 400 then
      let data := json.Decode resp.Body
      let dataByte := json.Marshal data
      let resp : HttpResponse := { resp with Body := dataByte }
      do
        let respErr ← (data.index "error").assertMap
        let reason ←
          if respErr.isSome then do
            let m ← (data.index "error").assertMap
            (GoMap.index m "type").assertString
          else pure ""
        if reason = "resource_already_exists_exception" then
          pure ⟨true, none, some resp⟩
        else
          let r := policy ctx (some resp) err
          pure ⟨r.1, r.2, some resp⟩
    else
      let r := policy ctx (some resp) err
      Except.ok ⟨r.1, r.2, some resp⟩

/-! ## Reference instances of the library parameters

They stand for the libraries at the concrete inputs of the closed theorems below.
`goJSON` follows `encoding/json` on ASCII bodies made of objects, arrays, strings with
the two-character escapes, integers of at most 15 digits (no negative zero), `true`,
`false` and `null`;
on a body outside this fragment its `Decode` leaves the map nil. -/

/-- The bytes of a Go string (its UTF-8 encoding). -/
def bytesOf (s : String) : List UInt8 := s.toList.flatMap String.utf8EncodeChar

/-- JSON insignificant whitespace. -/
def isSpace (c : Char) : Bool := c = ' ' || c = '\t' || c = '\n' || c = '\r'

/-- Drop leading whitespace. -/
def skipSpace : List Char → List Char
  | [] => []
  | c :: cs => if isSpace c then skipSpace cs else c :: cs

/-- The character a two-character escape stands for. -/
def unescape (c : Char) : Option Char :=
  if c = '"' then some '"'
  else if c = '\\' then some '\\'
  else if c = '/' then some '/'
  else if c = 'n' then some '\n'
  else if c = 't' then some '\t'
  else if c = 'r' then some '\r'
  else if c = 'b' then some '\x08'
  else if c = 'f' then some '\x0c'
  else none

/-- The string literal whose opening quote was just read: its text (accumulated in
reverse in `acc`) and what follows the closing quote. -/
def scanString : List Char → List Char → Option (String × List Char)
  | _, [] => none
  | acc, c :: rest =>
    if c = '"' then some (String.mk acc.reverse, rest)
    else if c = '\\' then
      match rest with
      | [] => none
      | e :: rest2 =>
        match unescape e with
        | some u => scanString (u :: acc) rest2
        | none => none
    else if c.toNat < 32 ∨ 127 < c.toNat then none
    else scanString (c :: acc) rest

/-- The value of a run of decimal digits. -/
def digitsValue (ds : List Char) : Nat :=
  ds.foldl (fun n d => 10 * n + (d.toNat - '0'.toNat)) 0

/-- An integer literal without sign at the head of the input. -/
def scanNat (cs : List Char) : Option (Nat × List Char) :=
  let ds := cs.takeWhile Char.isDigit
  let rest := cs.dropWhile Char.isDigit
  if ds = [] ∨ 15 < ds.length ∨ (1 < ds.length ∧ ds.head? = some '0') then none
  else match rest with
    | c :: _ => if c = '.' ∨ c = 'e' ∨ c = 'E' then none else some (digitsValue ds, rest)
    | [] => some (digitsValue ds, rest)

/-- Store `k ↦ v` in a map body; a later entry of a key replaces the earlier one. -/
def setEntry (kvs : List (String × GoValue)) (k : String) (v : GoValue) :
    List (String × GoValue) :=
  kvs.filter (fun e => e.1 ≠ k) ++ [(k, v)]

mutual
/-- One JSON value at the head of the input (after optional whitespace) and the rest of
the input.  The fuel bounds the number of nested calls. -/
def parseValue : Nat → List Char → Option (GoValue × List Char)
  | 0, _ => none
  | fuel + 1, cs =>
    match skipSpace cs with
    | [] => none
    | c :: rest =>
      if c = '\x7b' then
        match skipSpace rest with
        | [] => none
        | d :: rest2 =>
          if d = '\x7d' then some (GoValue.map (some []), rest2)
          else
            match parseMembers fuel [] (d :: rest2) with
            | some (kvs, rest3) => some (GoValue.map (some kvs), rest3)
            | none => none
      else if c = '[' then
        match skipSpace rest with
        | [] => none
        | d :: rest2 =>
          if d = ']' then some (GoValue.slice [], rest2)
          else
            match parseElements fuel [] (d :: rest2) with
            | some (vs, rest3) => some (GoValue.slice vs, rest3)
            | none => none
      else if c = '"' then
        match scanString [] rest with
        | some (s, rest2) => some (GoValue.string s, rest2)
        | none => none
      else if c = '-' then
        match scanNat rest with
        | some (n, rest2) => if n = 0 then none else some (GoValue.float64 (-(n : Rat)), rest2)
        | none => none
      else if c.isDigit then
        match scanNat (c :: rest) with
        | some (n, rest2) => some (GoValue.float64 (n : Rat), rest2)
        | none => none
      else
        match c :: rest with
        | 't' :: 'r' :: 'u' :: 'e' :: rest2 => some (GoValue.bool true, rest2)
        | 'f' :: 'a' :: 'l' :: 's' :: 'e' :: rest2 => some (GoValue.bool false, rest2)
        | 'n' :: 'u' :: 'l' :: 'l' :: rest2 => some (GoValue.nil, rest2)
        | _ => none
/-- The members of an object from its next key on, up to and including the closing brace. -/
def parseMembers : Nat → List (String × GoValue) → List Char →
    Option (List (String × GoValue) × List Char)
  | 0, _, _ => none
  | fuel + 1, acc, cs =>
    match skipSpace cs with
    | [] => none
    | q :: rest =>
      if q = '"' then
        match scanString [] rest with
        | none => none
        | some (k, rest2) =>
          match skipSpace rest2 with
          | [] => none
          | colon :: rest3 =>
            if colon = ':' then
              match parseValue fuel rest3 with
              | none => none
              | some (v, rest4) =>
                match skipSpace rest4 with
                | [] => none
                | sep :: rest5 =>
                  if sep = ',' then parseMembers fuel (setEntry acc k v) rest5
                  else if sep = '\x7d' then some (setEntry acc k v, rest5)
                  else none
            else none
      else none
/-- The elements of an array from its next element on, up to and including the closing
bracket. -/
def parseElements : Nat → List GoValue → List Char → Option (List GoValue × List Char)
  | 0, _, _ => none
  | fuel + 1, acc, cs =>
    match parseValue fuel cs with
    | none => none
    | some (v, rest) =>
      match skipSpace rest with
      | [] => none
      | sep :: rest2 =>
        if sep = ',' then parseElements fuel (acc ++ [v]) rest2
        else if sep = ']' then some (acc ++ [v], rest2)
        else none
end

/-- Reference `Decode`: the first JSON value of the body when it is an object, otherwise
the map stays nil (syntax error, empty body, or a value that is not an object). -/
def decodeObject (body : List UInt8) : GoMap :=
  match parseValue (2 * body.length + 2) (body.map (fun b => Char.ofNat b.toNat)) with
  | some (GoValue.map m, _) => m
  | _ => none

/-- Lower-case hexadecimal digit. -/
def hexDigit (n : Nat) : Char := "0123456789abcdef".toList.getD n '0'

/-- One character of a string as the encoder writes it inside quotes. -/
def escapeChar (c : Char) : List Char :=
  if c = '"' then ['\\', '"']
  else if c = '\\' then ['\\', '\\']
  else if c = '\n' then ['\\', 'n']
  else if c = '\r' then ['\\', 'r']
  else if c = '\t' then ['\\', 't']
  else if c.toNat < 32 ∨ c = '<' ∨ c = '>' ∨ c = '&' then
    ['\\', 'u', '0', '0', hexDigit (c.toNat / 16), hexDigit (c.toNat % 16)]
  else [c]

/-- A string literal with its quotes. -/
def quote (s : String) : List Char := '"' :: s.toList.flatMap escapeChar ++ ['"']

/-- The entries a map body holds (first entry of each key), in key order. -/
def sortedEntries (kvs : List (String × GoValue)) : List (String × GoValue) :=
  (kvs.foldl (fun acc e => if acc.any (fun a => a.1 = e.1) then acc else acc ++ [e]) []).insertionSort
    (fun a b => a.1 < b.1 ∨ a.1 = b.1)

/-- The JSON text of a value.  The fuel bounds the nesting depth. -/
def marshalValue : Nat → GoValue → List Char
  | 0, _ => "null".toList
  | fuel + 1, v =>
    match v with
    | GoValue.nil => "null".toList
    | GoValue.bool b => if b then "true".toList else "false".toList
    | GoValue.float64 x => if x.den = 1 then (toString x.num).toList else "null".toList
    | GoValue.string s => quote s
    | GoValue.slice xs => '[' :: List.intercalate [','] (xs.map (marshalValue fuel)) ++ [']']
    | GoValue.map none => "null".toList
    | GoValue.map (some kvs) =>
      '\x7b' :: List.intercalate [',']
        ((sortedEntries kvs).map (fun e => quote e.1 ++ ':' :: marshalValue fuel e.2)) ++ ['\x7d']

/-- Reference JSON library. -/
def goJSON : Codec where
  Decode := decodeObject
  Marshal := fun m => (marshalValue 10000 (GoValue.map m)).flatMap String.utf8EncodeChar

/-- Modelled from the spec: the default retry policy of the retry transport, a library
function that is not part of the sources.  It retries what the spec lists for it, "5xx,
network errors, 429", and nothing else ("no retry on other 4xx"); once the context is done
it does not retry and reports the context's error. -/
def DefaultRetryPolicy : RetryPolicy := fun ctx resp err =>
  match ctx.Err with
  | some e => (false, some e)
  | none =>
    match err with
    | some _ => (true, none)
    | none =>
      match resp with
      | none => (false, none)
      | some r =>
        (r.StatusCode = 429 || (500 ≤ r.StatusCode && r.StatusCode ≤ 599), none)

/-! ## `MakeRequest` (lines 73-108) -/

/-- The result type of the source, lines 30-33. -/
structure Response where
  Status : Int
  Data : GoMap

/-- Modelled from the spec: the `Client` type is declared outside `src/es/utils.go`; the
three fields `MakeRequest` reads are those of the spec's `ClientConfig` (base URL, username,
password). -/
structure Client where
  URL : String
  Username : String
  Password : String
deriving DecidableEq, Repr

/-- An `http.Header`: canonical key to values. -/
abbrev Header := List (String × List String)

/-- The part of a `retryablehttp.Request` the source touches. -/
structure Request where
  Method : String
  URL : String
  Body : List UInt8
  Header : Header
deriving DecidableEq, Repr

/-- The library calls of `MakeRequest`.  `NewRequest` is `retryablehttp.NewRequest` (it
returns a request or an error), `CanonicalKey` is the key canonicalisation of `http.Header`,
and `Do` is `httpClient.Do`, the whole retry loop: it returns the Go pair (resp, err), or
panics. -/
structure Transport where
  NewRequest : String → String → List UInt8 → Except GoError Request
  CanonicalKey : String → String
  Do : Option Request → Except Panic (Option HttpResponse × Option GoError)

/-- The call `h.Set(key, value)` of net/http: the canonical key now holds exactly `value`. -/
def Header.Set (canon : String → String) (h : Header) (key value : String) : Header :=
  (canon key, [value]) :: h.filter (fun e => e.1 ≠ canon key)

/-- The call `h.Get(key)` of net/http: the first value of the canonical key, or "". -/
def Header.Get (canon : String → String) (h : Header) (key : String) : String :=
  match h.lookup (canon key) with
  | some (v :: _) => v
  | _ => ""

/-- The 64 characters of the standard base64 alphabet. -/
def base64Alphabet : List Char :=
  "ABCDEFGHIJKLMNOPQRSTUVWXYZabcdefghijklmnopqrstuvwxyz0123456789+/".toList

/-- The character of a 6-bit group. -/
def base64Char (n : Nat) : Char := base64Alphabet.getD (n % 64) '='

/-- The encoding `base64.StdEncoding.EncodeToString` (RFC 4648, padded). -/
def base64Encode : List UInt8 → List Char
  | [] => []
  | [a] =>
    let n := a.toNat * 65536
    [base64Char (n / 262144), base64Char (n / 4096), '=', '=']
  | [a, b] =>
    let n := a.toNat * 65536 + b.toNat * 256
    [base64Char (n / 262144), base64Char (n / 4096), base64Char (n / 64), '=']
  | a :: b :: c :: rest =>
    let n := a.toNat * 65536 + b.toNat * 256 + c.toNat
    base64Char (n / 262144) :: base64Char (n / 4096) :: base64Char (n / 64) :: base64Char n ::
      base64Encode rest

/-- The helper `basicAuth` of net/http: base64 of `username:password`. -/
def basicAuth (username password : String) : String :=
  String.mk (base64Encode (bytesOf (username ++ ":" ++ password)))

/-- The call `req.SetBasicAuth(username, password)` of net/http. -/
def Request.SetBasicAuth (canon : String → String) (req : Request) (username password : String) :
    Request :=
  let value := "Basic " ++ basicAuth username password
  { req with Header := Header.Set canon req.Header "Authorization" value }

/-- Lines 81-85: `req.Header.Set(key, value)` for every entry of `headers`, which lists
the entries in the order the `range` loop visits them.  `req` may be nil. -/
def setHeaders (canon : String → String) :
    Option Request → List (String × String) → Except Panic (Option Request)
  | req, [] => Except.ok req
  | none, _ :: _ => Except.error Panic.nilDereference
  | some req, (key, value) :: rest =>
    setHeaders canon (some { req with Header := Header.Set canon req.Header key value }) rest

/-- Lines 80-89: the request handed to the transport, together with the outer `err`
variable, which holds the error of `NewRequest`. -/
def buildRequest (httpClient : Transport) (esClient : Client) (method endPoint : String)
    (body : List UInt8) (headers : Option (List (String × String))) :
    Except Panic (Option Request × Option GoError) :=
  let (req, err) : Option Request × Option GoError :=
    match httpClient.NewRequest method (esClient.URL ++ endPoint) body with
    | Except.ok r => (some r, none)
    | Except.error e => (none, some e)
  do
    let req ←
      match headers with
      | none => pure req
      | some hs => setHeaders httpClient.CanonicalKey req hs
    if esClient.Username ≠ "" ∧ esClient.Password ≠ "" then
      match req with
      | none => throw Panic.nilDereference
      | some r =>
        pure (some (r.SetBasicAuth httpClient.CanonicalKey esClient.Username esClient.Password), err)
    else
      pure (req, err)

/-- Lines 90-106: the goroutine and the wait on `doneCh`.  The channel is unbuffered and
carries exactly one value, sent after every write to `response`, so the caller sees the
goroutine run to its send.  Inside the goroutine `resp, err := httpClient.Do(req)`
declares a new `err`; `outerErr` is the variable of the enclosing function that line
106 returns. -/
def awaitResponse (json : Codec) (httpClient : Transport) (req : Option Request)
    (outerErr : Option GoError) : Except Panic (Response × Option GoError) :=
  let response : Response := ⟨0, none⟩
  do
    let (resp, err) ← httpClient.Do req
    match err with
    | some _ => pure (response, outerErr)
    | none =>
      match resp with
      | none => throw Panic.nilDereference
      | some resp =>
        let response := { response with Data := json.Decode resp.Body }
        let response := { response with Status := resp.StatusCode }
        pure (response, none)

/-- MakeRequest initiate request to ES API. -/
def MakeRequest (json : Codec) (httpClient : Transport) (esClient : Client)
    (method endPoint : String) (body : List UInt8) (headers : Option (List (String × String))) :
    Except Panic (Response × Option GoError) :=
  do
    let (req, err) ← buildRequest httpClient esClient method endPoint body headers
    awaitResponse json httpClient req err

/-- Reference `NewRequest`: the method must be a non-empty run of letters (an empty
method or one with other characters is refused, as net/http refuses a method that is not
a token); the headers start empty. -/
def simpleNewRequest (method url : String) (body : List UInt8) : Except GoError Request :=
  if method ≠ "" ∧ method.toList.all Char.isAlpha then Except.ok ⟨method, url, body, []⟩
  else Except.error ⟨"net/http: invalid method"⟩

/-- A simulated target that answers every request with the given final response. -/
def respondingTransport (resp : HttpResponse) : Transport where
  NewRequest := simpleNewRequest
  CanonicalKey := id
  Do := fun _ => Except.ok (some resp, none)

/-- A simulated target that answers 200 with the `Authorization` header it received. -/
def echoAuthTransport : Transport where
  NewRequest := simpleNewRequest
  CanonicalKey := id
  Do := fun req =>
    match req with
    | none => Except.error Panic.nilDereference
    | some r =>
      Except.ok (some ⟨200, bytesOf ("\x7b\"authorization\":\""
        ++ Header.Get id r.Header "Authorization" ++ "\"\x7d")⟩, none)

/-- A simulated total connection failure: no response, only a transport error. -/
def failingTransport (e : GoError) : Transport where
  NewRequest := simpleNewRequest
  CanonicalKey := id
  Do := fun _ => Except.ok (none, some e)

/-- Lines 82-84 on a request that exists: every entry set in turn. -/
def withHeaders (canon : String → String) (req : Request) (hs : List (String × String)) : Request :=
  hs.foldl (fun r kv => { r with Header := Header.Set canon r.Header kv.1 kv.2 }) req

/-! ## Sample inputs -/

/-- A live context. -/
def background : Context := ⟨none⟩

/-- The body of the "resource already exists" answer. -/
def alreadyExistsBody : List UInt8 :=
  bytesOf "\x7b\"error\":\x7b\"type\":\"resource_already_exists_exception\"\x7d\x7d"

/-- The body of a mapping failure. -/
def mapperParsingBody : List UInt8 :=
  bytesOf "\x7b\"error\":\x7b\"type\":\"mapper_parsing_exception\"\x7d\x7d"

/-- The body of a plain "not found" answer. -/
def notFoundBody : List UInt8 := bytesOf "\x7b\"found\":false\x7d"

/-- A client without credentials. -/
def localClient : Client := ⟨"http://localhost:9200", "", ""⟩

/-! ## Auxiliary facts -/

theorem setHeaders_some (canon : String → String) (hs : List (String × String)) (req : Request) :
    setHeaders canon (some req) hs = Except.ok (some (withHeaders canon req hs)) := by
  induction hs generalizing req with
  | nil => rfl
  | cons kv rest ih =>
    obtain ⟨key, value⟩ := kv
    simp only [setHeaders, withHeaders, List.foldl_cons]
    exact ih _

theorem Header.Get_Set (canon : String → String) (h : Header) (key value : String) :
    Header.Get canon (Header.Set canon h key value) key = value := by
  simp [Header.Get, Header.Set, List.lookup]

/-- On a 400 response whose decoded `error` entry is not a map, the first type assertion
(line 62) panics. -/
theorem checkRetry_panics_without_error_map (json : Codec) (policy : RetryPolicy)
    (ctx : Context) (resp : HttpResponse) (err : Option GoError)
    (hstatus : resp.StatusCode = 400)
    (herror : ∀ m, (json.Decode resp.Body).index "error" ≠ GoValue.map m) :
    checkRetry json policy ctx (some resp) err = Except.error Panic.interfaceConversion := by
  unfold checkRetry
  simp only [hstatus, if_true]
  cases hv : (json.Decode resp.Body).index "error" with
  | map m => exact absurd hv (herror m)
  | nil => rfl
  | bool b => rfl
  | float64 x => rfl
  | string s => rfl
  | slice xs => rfl

/-- On a 400 response whose decoded `error` entry is a non-nil map without a string under
`type`, the second type assertion (line 64) panics. -/
theorem checkRetry_panics_without_type_string (json : Codec) (policy : RetryPolicy)
    (ctx : Context) (resp : HttpResponse) (err : Option GoError) (e : List (String × GoValue))
    (hstatus : resp.StatusCode = 400)
    (herror : (json.Decode resp.Body).index "error" = GoValue.map (some e))
    (htype : ∀ s, GoMap.index (some e) "type" ≠ GoValue.string s) :
    checkRetry json policy ctx (some resp) err = Except.error Panic.interfaceConversion := by
  unfold checkRetry
  simp only [hstatus, if_true, herror]
  cases hv : GoMap.index (some e) "type" with
  | string s => exact absurd hv (htype s)
  | nil => simp [GoValue.assertMap, GoValue.assertString, hv, bind, Except.bind]
  | bool b => simp [GoValue.assertMap, GoValue.assertString, hv, bind, Except.bind]
  | float64 x => simp [GoValue.assertMap, GoValue.assertString, hv, bind, Except.bind]
  | slice xs => simp [GoValue.assertMap, GoValue.assertString, hv, bind, Except.bind]
  | map m => simp [GoValue.assertMap, GoValue.assertString, hv, bind, Except.bind]

/-- When the transport reports an error, `MakeRequest` returns the zero `Response` and the
outer `err`, the one `NewRequest` set. -/
theorem MakeRequest_returns_outer_err (json : Codec) (httpClient : Transport) (esClient : Client)
    (method endPoint : String) (body : List UInt8) (headers : Option (List (String × String)))
    (req : Option Request) (outerErr : Option GoError) (resp : Option HttpResponse) (e : GoError)
    (hbuild : buildRequest httpClient esClient method endPoint body headers
      = Except.ok (req, outerErr))
    (hdo : httpClient.Do req = Except.ok (resp, some e)) :
    MakeRequest json httpClient esClient method endPoint body headers
      = Except.ok (⟨0, none⟩, outerErr) := by
  simp [MakeRequest, hbuild, awaitResponse, hdo, bind, Except.bind, pure, Except.pure]

/-- A request that `NewRequest` built reaches the transport, and the outer `err` is nil. -/
theorem buildRequest_of_NewRequest (httpClient : Transport) (esClient : Client)
    (method endPoint : String) (body : List UInt8) (headers : Option (List (String × String)))
    (r : Request)
    (hnew : httpClient.NewRequest method (esClient.URL ++ endPoint) body = Except.ok r) :
    buildRequest httpClient esClient method endPoint body headers
      = Except.ok
          (some (if esClient.Username ≠ "" ∧ esClient.Password ≠ "" then
              (withHeaders httpClient.CanonicalKey r (headers.getD [])).SetBasicAuth
                httpClient.CanonicalKey esClient.Username esClient.Password
            else withHeaders httpClient.CanonicalKey r (headers.getD [])), none) := by
  unfold buildRequest
  cases headers with
  | none =>
    by_cases hc : esClient.Username ≠ "" ∧ esClient.Password ≠ ""
    · simp [hnew, hc, bind, Except.bind, pure, Except.pure, withHeaders, throw, throwThe]
    · simp [hnew, hc, bind, Except.bind, pure, Except.pure, withHeaders]
  | some hs =>
    by_cases hc : esClient.Username ≠ "" ∧ esClient.Password ≠ ""
    · simp [hnew, hc, bind, Except.bind, pure, Except.pure, setHeaders_some]
    · simp [hnew, hc, bind, Except.bind, pure, Except.pure, setHeaders_some]

/-- For a request that `NewRequest` built, `MakeRequest` hands the transport the request
with the caller's headers set and, exactly when `Username` and `Password` are both
non-empty, with `SetBasicAuth` applied on top, so that its `Authorization` header is
`Basic base64(username:password)`; when either is empty the request carries the caller's
headers and nothing else. -/
theorem MakeRequest_basic_auth (json : Codec) (httpClient : Transport) (esClient : Client)
    (method endPoint : String) (body : List UInt8) (headers : Option (List (String × String)))
    (r : Request)
    (hnew : httpClient.NewRequest method (esClient.URL ++ endPoint) body = Except.ok r) :
    (esClient.Username ≠ "" ∧ esClient.Password ≠ "" →
        MakeRequest json httpClient esClient method endPoint body headers
            = awaitResponse json httpClient
                (some ((withHeaders httpClient.CanonicalKey r (headers.getD [])).SetBasicAuth
                  httpClient.CanonicalKey esClient.Username esClient.Password)) none
          ∧ Header.Get httpClient.CanonicalKey
                ((withHeaders httpClient.CanonicalKey r (headers.getD [])).SetBasicAuth
                  httpClient.CanonicalKey esClient.Username esClient.Password).Header
                "Authorization"
              = "Basic " ++ basicAuth esClient.Username esClient.Password)
      ∧ (¬ (esClient.Username ≠ "" ∧ esClient.Password ≠ "") →
        MakeRequest json httpClient esClient method endPoint body headers
          = awaitResponse json httpClient
              (some (withHeaders httpClient.CanonicalKey r (headers.getD []))) none) := by
  have hb := buildRequest_of_NewRequest httpClient esClient method endPoint body headers r hnew
  constructor
  · intro hc
    rw [if_pos hc] at hb
    refine ⟨?_, ?_⟩
    · simp [MakeRequest, hb, bind, Except.bind]
    · simp [Request.SetBasicAuth, Header.Get_Set]
  · intro hc
    rw [if_neg hc] at hb
    simp [MakeRequest, hb, bind, Except.bind]

/-- With both credentials set the target sees `Basic base64(admin:secret)`; with an empty
username and a password it sees no `Authorization` header. -/
theorem MakeRequest_basic_auth_witness :
    MakeRequest goJSON echoAuthTransport ⟨"http://localhost:9200", "admin", "secret"⟩
          "GET" "/" [] (some [("Content-Type", "application/json")])
        = Except.ok
            (⟨200, some [("authorization", GoValue.string "Basic YWRtaW46c2VjcmV0")]⟩, none)
      ∧ MakeRequest goJSON echoAuthTransport ⟨"http://localhost:9200", "", "secret"⟩
          "GET" "/" [] (some [("Content-Type", "application/json")])
        = Except.ok (⟨200, some [("authorization", GoValue.string "")]⟩, none) :=
  ⟨((MakeRequest_basic_auth goJSON echoAuthTransport ⟨"http://localhost:9200", "admin", "secret"⟩
        "GET" "/" [] (some [("Content-Type", "application/json")])
        ⟨"GET", "http://localhost:9200/", [], []⟩ rfl).1 ⟨by decide, by decide⟩).1.trans rfl,
    ((MakeRequest_basic_auth goJSON echoAuthTransport ⟨"http://localhost:9200", "", "secret"⟩
        "GET" "/" [] (some [("Content-Type", "application/json")])
        ⟨"GET", "http://localhost:9200/", [], []⟩ rfl).2 (by decide)).trans rfl⟩

/-- When `NewRequest` fails, `req` is nil and the outer `err` is set, but nothing tests it:
with both credentials non-empty the nil request is dereferenced, at line 83 when the caller
gave a header and at line 88 otherwise, and `MakeRequest` panics. -/
theorem MakeRequest_panics_of_NewRequest_error (json : Codec) (httpClient : Transport)
    (esClient : Client) (method endPoint : String) (body : List UInt8)
    (headers : Option (List (String × String))) (e : GoError)
    (hnew : httpClient.NewRequest method (esClient.URL ++ endPoint) body = Except.error e)
    (hc : esClient.Username ≠ "" ∧ esClient.Password ≠ "") :
    MakeRequest json httpClient esClient method endPoint body headers
      = Except.error Panic.nilDereference := by
  unfold MakeRequest buildRequest
  cases headers with
  | none => simp [hnew, hc, bind, Except.bind, pure, Except.pure, throw, throwThe,
      MonadExceptOf.throw]
  | some hs =>
    cases hs with
    | nil => simp [hnew, hc, setHeaders, bind, Except.bind, throw, throwThe,
        MonadExceptOf.throw]
    | cons kv rest => simp [hnew, setHeaders, bind, Except.bind]

/-! ## The claims -/

/-- C1: on a 400 response whose body decodes to a mapping in which `error` is a mapping
and its `type` is the string `resource_already_exists_exception`, `checkRetry` returns
retry = true with a nil error, whatever the default retry policy is (it is not consulted);
the response keeps its status and carries the re-encoded body. -/
theorem checkRetry_resource_already_exists (json : Codec) (policy : RetryPolicy)
    (ctx : Context) (resp : HttpResponse) (err : Option GoError) (e : List (String × GoValue))
    (hstatus : resp.StatusCode = 400)
    (herror : (json.Decode resp.Body).index "error" = GoValue.map (some e))
    (htype : GoMap.index (some e) "type" = GoValue.string "resource_already_exists_exception") :
    checkRetry json policy ctx (some resp) err
      = Except.ok ⟨true, none, some ⟨resp.StatusCode, json.Marshal (json.Decode resp.Body)⟩⟩ := by
  unfold checkRetry
  simp [hstatus, herror, htype, GoValue.assertMap, GoValue.assertString, bind, Except.bind,
    pure, Except.pure]

/-- The "resource already exists" answer is retried even under a policy that never
retries, and the body handed on is byte for byte the one received. -/
theorem checkRetry_resource_already_exists_witness :
    checkRetry goJSON (fun _ _ _ => (false, some ⟨"never retry"⟩)) background
        (some ⟨400, alreadyExistsBody⟩) none
      = Except.ok ⟨true, none, some ⟨400, alreadyExistsBody⟩⟩ :=
  checkRetry_resource_already_exists goJSON (fun _ _ _ => (false, some ⟨"never retry"⟩))
    background ⟨400, alreadyExistsBody⟩ none
    [("type", GoValue.string "resource_already_exists_exception")] rfl rfl rfl

/-- C2: on a response whose status is not 400, `checkRetry` returns exactly the pair the
default retry policy returns on the same context, response and transport error, and the
response is left as it was: its body is neither read nor replaced. -/
theorem checkRetry_other_status_is_default (json : Codec) (policy : RetryPolicy)
    (ctx : Context) (resp : HttpResponse) (err : Option GoError)
    (hstatus : resp.StatusCode ≠ 400) :
    checkRetry json policy ctx (some resp) err
      = Except.ok ⟨(policy ctx (some resp) err).1, (policy ctx (some resp) err).2, some resp⟩ := by
  unfold checkRetry
  simp [hstatus]

/-- A 503 goes to the default policy, which retries it; the body is untouched. -/
theorem checkRetry_other_status_is_default_witness :
    checkRetry goJSON DefaultRetryPolicy background (some ⟨503, alreadyExistsBody⟩) none
      = Except.ok ⟨true, none, some ⟨503, alreadyExistsBody⟩⟩ :=
  checkRetry_other_status_is_default goJSON DefaultRetryPolicy background
    ⟨503, alreadyExistsBody⟩ none (by decide)

/-- C3 (the code departs from it): with request construction succeeding and the transport
failing without a response, `MakeRequest` returns the zero `Response` and a nil error.  The
transport error stays in the goroutine's own `err` (line 93 declares it anew), and line 106
returns the outer one, which `NewRequest` left nil. -/
theorem MakeRequest_transport_failure_returns_nil_error :
    MakeRequest goJSON (failingTransport ⟨"dial tcp: connection refused"⟩) localClient
        "GET" "/_cluster/health" [] none
      = Except.ok (⟨0, none⟩, none) :=
  MakeRequest_returns_outer_err goJSON (failingTransport ⟨"dial tcp: connection refused"⟩)
    localClient "GET" "/_cluster/health" [] none
    (some ⟨"GET", "http://localhost:9200/_cluster/health", [], []⟩) none none
    ⟨"dial tcp: connection refused"⟩ rfl rfl

/-- C4: when request construction succeeds and the transport hands back a final response
with a nil error, `MakeRequest` returns a nil error and a `Response` whose `Status` is the
status code of that response, whatever it is, and whose `Data` is the mapping decoded from
its body. -/
theorem MakeRequest_final_response (json : Codec) (httpClient : Transport) (esClient : Client)
    (method endPoint : String) (body : List UInt8) (headers : Option (List (String × String)))
    (req : Option Request) (outerErr : Option GoError) (resp : HttpResponse)
    (hbuild : buildRequest httpClient esClient method endPoint body headers
      = Except.ok (req, outerErr))
    (hdo : httpClient.Do req = Except.ok (some resp, none)) :
    MakeRequest json httpClient esClient method endPoint body headers
      = Except.ok (⟨resp.StatusCode, json.Decode resp.Body⟩, none) := by
  simp [MakeRequest, hbuild, awaitResponse, hdo, bind, Except.bind, pure, Except.pure]

/-- A final 404 with the "found: false" body is returned as a `Response`, not as an error. -/
theorem MakeRequest_final_response_witness :
    MakeRequest goJSON (respondingTransport ⟨404, notFoundBody⟩) localClient
        "GET" "/monitors/1" [] none
      = Except.ok (⟨404, some [("found", GoValue.bool false)]⟩, none) :=
  MakeRequest_final_response goJSON (respondingTransport ⟨404, notFoundBody⟩) localClient
    "GET" "/monitors/1" [] none
    (some ⟨"GET", "http://localhost:9200/monitors/1", [], []⟩) none ⟨404, notFoundBody⟩ rfl rfl

/-- C5 (the code departs from it): on a 400 response whose body is empty or is not JSON,
decoding leaves the map nil and the type assertion of line 62 panics, while the default
retry policy on the same response answers "no retry" with a nil error. -/
theorem checkRetry_undecodable_body_panics :
    checkRetry goJSON DefaultRetryPolicy background (some ⟨400, []⟩) none
        = Except.error Panic.interfaceConversion
      ∧ checkRetry goJSON DefaultRetryPolicy background
          (some ⟨400, bytesOf "<html>Bad Request</html>"⟩) none
        = Except.error Panic.interfaceConversion
      ∧ DefaultRetryPolicy background (some ⟨400, []⟩) none = (false, none) :=
  ⟨checkRetry_panics_without_error_map goJSON DefaultRetryPolicy background ⟨400, []⟩ none rfl
      (fun m h => GoValue.noConfusion (show GoValue.nil = GoValue.map m from h)),
    rfl, rfl⟩

/-- C6 (the code departs from it): on a 400 response whose body is a JSON mapping with no
`error` key, or with an `error` that is not a mapping, or with an `error` mapping that has
no `type`, `checkRetry` panics in a type assertion (line 62 in the first two cases, line
64 in the third) instead of taking the reason to be empty. -/
theorem checkRetry_missing_reason_panics :
    checkRetry goJSON DefaultRetryPolicy background
          (some ⟨400, bytesOf "\x7b\"status\":400\x7d"⟩) none
        = Except.error Panic.interfaceConversion
      ∧ checkRetry goJSON DefaultRetryPolicy background
          (some ⟨400, bytesOf "\x7b\"error\":\"bad request\"\x7d"⟩) none
        = Except.error Panic.interfaceConversion
      ∧ checkRetry goJSON DefaultRetryPolicy background
          (some ⟨400, bytesOf "\x7b\"error\":\x7b\"reason\":\"no type here\"\x7d\x7d"⟩) none
        = Except.error Panic.interfaceConversion :=
  ⟨rfl, rfl,
    checkRetry_panics_without_type_string goJSON DefaultRetryPolicy background
      ⟨400, bytesOf "\x7b\"error\":\x7b\"reason\":\"no type here\"\x7d\x7d"⟩ none
      [("reason", GoValue.string "no type here")] rfl rfl
      (fun s h => GoValue.noConfusion (show GoValue.nil = GoValue.string s from h))⟩

/-- C7, as the code has it: when `resp` is nil, `checkRetry` returns retry = false with a
nil error for every context, transport error and default retry policy; the policy is not
consulted. -/
theorem checkRetry_nil_response (json : Codec) (policy : RetryPolicy) (ctx : Context)
    (err : Option GoError) :
    checkRetry json policy ctx none err = Except.ok ⟨false, none, none⟩ := by
  rfl

/-- C7 as stated fails: for a refused connection under a live context the default retry
policy answers "retry", `checkRetry` answers "no retry". -/
theorem checkRetry_nil_response_differs_from_default :
    DefaultRetryPolicy background none (some ⟨"dial tcp: connection refused"⟩) = (true, none)
      ∧ checkRetry goJSON DefaultRetryPolicy background none
            (some ⟨"dial tcp: connection refused"⟩)
          = Except.ok ⟨false, none, none⟩
      ∧ checkRetry goJSON DefaultRetryPolicy background none
            (some ⟨"dial tcp: connection refused"⟩)
          ≠ Except.ok
              ⟨(DefaultRetryPolicy background none (some ⟨"dial tcp: connection refused"⟩)).1,
                (DefaultRetryPolicy background none (some ⟨"dial tcp: connection refused"⟩)).2,
                none⟩ := by
  refine ⟨rfl, rfl, ?_⟩
  intro h
  have h2 : (Except.ok ⟨false, none, none⟩ : Except Panic CheckResult)
      = Except.ok ⟨true, none, none⟩ := h
  cases h2

/-- C8 (the code departs from it): on a 400 response whose body is a JSON mapping without
an `error` mapping, here the "found: false" mapping, `checkRetry` panics at line 62, so
there is no inspected response left for the caller to read. -/
theorem checkRetry_plain_mapping_panics :
    goJSON.Decode notFoundBody = some [("found", GoValue.bool false)]
      ∧ checkRetry goJSON DefaultRetryPolicy background (some ⟨400, notFoundBody⟩) none
        = Except.error Panic.interfaceConversion := by
  exact ⟨rfl, rfl⟩

/-- C9 (the code departs from it): with both credentials non-empty and a request that
`NewRequest` refuses, here for its method, `MakeRequest` attaches nothing: `req` is nil,
the error of line 80 is not tested, and `req.SetBasicAuth` at line 88 dereferences the nil
request and panics. -/
theorem MakeRequest_basic_auth_on_refused_request_panics :
    simpleNewRequest "BAD METHOD" "http://localhost:9200/" []
        = Except.error ⟨"net/http: invalid method"⟩
      ∧ MakeRequest goJSON echoAuthTransport ⟨"http://localhost:9200", "admin", "secret"⟩
          "BAD METHOD" "/" [] none
        = Except.error Panic.nilDereference :=
  ⟨rfl,
    MakeRequest_panics_of_NewRequest_error goJSON echoAuthTransport
      ⟨"http://localhost:9200", "admin", "secret"⟩ "BAD METHOD" "/" [] none
      ⟨"net/http: invalid method"⟩ rfl ⟨by decide, by decide⟩⟩

/-- C10: on a 400 response whose body decodes to a mapping in which `error` is a mapping
and its `type` is a string other than `resource_already_exists_exception`, `checkRetry`
returns exactly the pair the default retry policy returns on the same context, transport
error and response, the response being the one it is handed at line 70: status 400 and the
re-encoded body. -/
theorem checkRetry_other_reason_is_default (json : Codec) (policy : RetryPolicy)
    (ctx : Context) (resp : HttpResponse) (err : Option GoError) (e : List (String × GoValue))
    (reason : String)
    (hstatus : resp.StatusCode = 400)
    (herror : (json.Decode resp.Body).index "error" = GoValue.map (some e))
    (htype : GoMap.index (some e) "type" = GoValue.string reason)
    (hreason : reason ≠ "resource_already_exists_exception") :
    checkRetry json policy ctx (some resp) err
      = Except.ok
          ⟨(policy ctx (some ⟨400, json.Marshal (json.Decode resp.Body)⟩) err).1,
            (policy ctx (some ⟨400, json.Marshal (json.Decode resp.Body)⟩) err).2,
            some ⟨400, json.Marshal (json.Decode resp.Body)⟩⟩ := by
  unfold checkRetry
  simp [hstatus, herror, htype, hreason, GoValue.assertMap, GoValue.assertString, bind,
    Except.bind, pure, Except.pure]

/-- A mapping failure is not retried: the default policy decides, and says no. -/
theorem checkRetry_other_reason_is_default_witness :
    checkRetry goJSON DefaultRetryPolicy background (some ⟨400, mapperParsingBody⟩) none
      = Except.ok ⟨false, none, some ⟨400, mapperParsingBody⟩⟩ :=
  checkRetry_other_reason_is_default goJSON DefaultRetryPolicy background
    ⟨400, mapperParsingBody⟩ none [("type", GoValue.string "mapper_parsing_exception")]
    "mapper_parsing_exception" rfl rfl rfl (by decide)

end Es
